import Mathlib

/-!
Verification of `mousestyles.path_diversity.path_features_advanced.compute_advanced`.

The source is a single Python function over a pandas DataFrame with columns
`x` and `y`.  We embed the DataFrame as a list of column keys together with
the list of (x, y) rows in order, real numbers standing for the floats.
`compute_advanced` either raises (TypeError / ValueError, and a domain error
propagated from `angle_between`) or returns a bundle of five features; we
model it as an `Except` value.

`angle_between` is imported in the source from
`mousestyles.path_diversity.path_features`, a module not present in this
repository snapshot; it is modelled from the spec (see `angle_between`
below).
-/

namespace PathFeaturesAdvanced

/-- Errors that `compute_advanced` can raise.  `typeError` and `valueError`
model Python's TypeError and ValueError raised by the validation code;
`domainError` models the undefined-angle domain error propagated from
`angle_between`. -/
inductive PyError where
  | typeError (msg : String)
  | valueError (msg : String)
  | domainError (msg : String)
  deriving DecidableEq

/-- A pandas DataFrame as consumed by `compute_advanced`: its column keys,
and its rows in index order.  Each row carries the values of the `x` and `y`
columns (the only columns the function reads; when the keys do not contain
`x` and `y` the function fails before reading any row). -/
structure DataFrame where
  keys : List String
  rows : List (ℝ × ℝ)

/-- A Python value passed as `path_obj`: either a DataFrame or some
non-DataFrame object (rejected by the isinstance check). -/
inductive PyObj where
  | df (d : DataFrame)
  | nonDF

/-- The returned dictionary of `compute_advanced`. -/
structure FeatureBundle where
  radius : List ℝ
  center_angles : List ℝ
  area_cov : ℝ
  area_rec : ℝ
  abs_distance : ℝ

/-- `np.min` over a nonempty list (the empty case never arises: the row
count is at least 3). -/
noncomputable def listMin : List ℝ → ℝ
  | [] => 0
  | x :: xs => xs.foldl min x

/-- `np.max` over a nonempty list. -/
noncomputable def listMax : List ℝ → ℝ
  | [] => 0
  | x :: xs => xs.foldl max x

/-- `np.linalg.norm` of a 2-vector. -/
noncomputable def norm2 (v : ℝ × ℝ) : ℝ := Real.sqrt (v.1 ^ 2 + v.2 ^ 2)

/-- The dot product of two 2-vectors, normalized by the product of their
norms and clipped to [-1, 1] (`np.clip(dot/(n1*n2), -1, 1)`). -/
noncomputable def clampedDot (v1 v2 : ℝ × ℝ) : ℝ :=
  max (-1) (min 1 ((v1.1 * v2.1 + v1.2 * v2.2) / (norm2 v1 * norm2 v2)))

/-- Modelled from the spec: `angle_between` lives in
`mousestyles.path_diversity.path_features`, which is not in this snapshot.
Per the spec it computes the unsigned angle
`arccos(clamp(dot(v1,v2) / (‖v1‖·‖v2‖), −1, 1))` in radians, and raises a
domain error when either vector has zero magnitude. -/
noncomputable def angle_between (v1 v2 : ℝ × ℝ) : Except PyError ℝ :=
  if v1.1 ^ 2 + v1.2 ^ 2 = 0 ∨ v2.1 ^ 2 + v2.2 ^ 2 = 0 then
    .error (.domainError "angle undefined for zero magnitude vector")
  else
    .ok (Real.arccos (clampedDot v1 v2))

/-- A list comprehension whose body may raise: the first raise propagates,
otherwise the list of results is produced in order. -/
def mapExcept (f : α → Except PyError β) : List α → Except PyError (List β)
  | [] => .ok []
  | a :: as =>
    match f a with
    | .error e => .error e
    | .ok b =>
      match mapExcept f as with
      | .error e => .error e
      | .ok bs => .ok (b :: bs)

/-- `np.min(path_obj.x)`. -/
noncomputable def xmin (rows : List (ℝ × ℝ)) : ℝ := listMin (rows.map Prod.fst)

/-- `np.max(path_obj.x)`. -/
noncomputable def xmax (rows : List (ℝ × ℝ)) : ℝ := listMax (rows.map Prod.fst)

/-- `np.min(path_obj.y)`. -/
noncomputable def ymin (rows : List (ℝ × ℝ)) : ℝ := listMin (rows.map Prod.snd)

/-- `np.max(path_obj.y)`. -/
noncomputable def ymax (rows : List (ℝ × ℝ)) : ℝ := listMax (rows.map Prod.snd)

/-- `area_rec = (xmax - xmin) * (ymax - ymin)`. -/
noncomputable def area_rec_of (rows : List (ℝ × ℝ)) : ℝ :=
  (xmax rows - xmin rows) * (ymax rows - ymin rows)

/-- The center point: midpoint of the bounding box. -/
noncomputable def center_of (rows : List (ℝ × ℝ)) : ℝ × ℝ :=
  ((xmin rows + xmax rows) / 2, (ymin rows + ymax rows) / 2)

/-- The radius vectors `path_obj.loc[i, 'x':'y'] - [center.x, center.y]`,
in index order. -/
noncomputable def vectors_of (rows : List (ℝ × ℝ)) : List (ℝ × ℝ) :=
  rows.map (fun p => (p.1 - (center_of rows).1, p.2 - (center_of rows).2))

/-- `radius = [np.linalg.norm(v) for v in vectors]`. -/
noncomputable def radius_of (rows : List (ℝ × ℝ)) : List ℝ :=
  (vectors_of rows).map norm2

/-- The adjacent pairs `zip(l[1:], l[:-1])`. -/
def adjPairs (l : List α) : List (α × α) := l.tail.zip l.dropLast

/-- `center_angles = [angle_between(list(v1), list(v2)) for v1, v2 in
zip(vectors[1:], vectors[:-1])]`, with any raise propagating. -/
noncomputable def angles_of (rows : List (ℝ × ℝ)) : Except PyError (List ℝ) :=
  mapExcept (fun vv => angle_between vv.1 vv.2) (adjPairs (vectors_of rows))

/-- `area_cov = sum(v1 * v2 * np.sin(theta) / 2 for v1, v2, theta in
zip(radius[1:], radius[:-1], center_angles))`. -/
noncomputable def area_cov_of (radius : List ℝ) (center_angles : List ℝ) : ℝ :=
  (((adjPairs radius).zip center_angles).map
    (fun p => p.1.1 * p.1.2 * Real.sin p.2 / 2)).sum

/-- `abs_distance = np.sqrt((end.x - initial.x)**2 + (end.y - initial.y)**2)`
where `initial` is the first row and `end` the last row. -/
noncomputable def abs_distance_of (rows : List (ℝ × ℝ)) : ℝ :=
  Real.sqrt (((rows.getLastD (0, 0)).1 - (rows.headD (0, 0)).1) ^ 2 +
    ((rows.getLastD (0, 0)).2 - (rows.headD (0, 0)).2) ^ 2)

/-- `compute_advanced(path_obj)`: validation in source order (isinstance,
keys, row count), then the five features; a raise inside the angle
comprehension propagates. -/
noncomputable def compute_advanced (path_obj : PyObj) : Except PyError FeatureBundle :=
  match path_obj with
  | .nonDF => .error (.typeError "path_obj must be pandas DataFrame")
  | .df d =>
    if "x" ∈ d.keys ∧ "y" ∈ d.keys then
      if d.rows.length ≤ 2 then
        .error (.valueError "path_obj must contain at least 3 rows")
      else
        match angles_of d.rows with
        | .error e => .error e
        | .ok center_angles =>
          .ok { radius := radius_of d.rows
                center_angles := center_angles
                area_cov := area_cov_of (radius_of d.rows) center_angles
                area_rec := area_rec_of d.rows
                abs_distance := abs_distance_of d.rows }
    else .error (.valueError "the keys of path_obj must contain x and y")

/-- For a later comparison: the arithmetic mean of the points, which is NOT
the center the source uses. -/
noncomputable def arithmetic_mean (rows : List (ℝ × ℝ)) : ℝ × ℝ :=
  ((rows.map Prod.fst).sum / rows.length, (rows.map Prod.snd).sum / rows.length)

/-- The row-reversed DataFrame. -/
def reverseDF (d : DataFrame) : DataFrame := ⟨d.keys, d.rows.reverse⟩

/-- The 4-point square path of the spec's worked example. -/
def squareDF : DataFrame := ⟨["x", "y"], [(0, 0), (2, 0), (2, 2), (0, 2)]⟩

/-- The feature bundle `compute_advanced` returns on the square path. -/
noncomputable def squareBundle : FeatureBundle :=
  { radius := [Real.sqrt 2, Real.sqrt 2, Real.sqrt 2, Real.sqrt 2]
    center_angles := [Real.pi / 2, Real.pi / 2, Real.pi / 2]
    area_cov := 3
    area_rec := 4
    abs_distance := 2 }

/-- A degenerate 3-point path on the vertical line x = 1. -/
def lineDF : DataFrame := ⟨["x", "y"], [(1, 0), (1, 1), (1, 3)]⟩

/-- The feature bundle `compute_advanced` returns on the vertical path. -/
noncomputable def lineBundle : FeatureBundle :=
  { radius := [3 / 2, 1 / 2, 3 / 2]
    center_angles := [0, Real.pi]
    area_cov := 0
    area_rec := 0
    abs_distance := 3 }

/-- A DataFrame lacking the x and y keys. -/
def noKeysDF : DataFrame := ⟨["a"], [(0, 0), (0, 1), (1, 0)]⟩

/-- A DataFrame with only 2 rows. -/
def shortDF : DataFrame := ⟨["x", "y"], [(0, 0), (1, 1)]⟩

/-- A path whose middle point coincides with the bounding-box center. -/
def centerDF : DataFrame := ⟨["x", "y"], [(0, 0), (1, 1), (2, 2)]⟩

theorem mapExcept_nil {f : α → Except PyError β} : mapExcept f [] = .ok [] := rfl

theorem mapExcept_cons_err {f : α → Except PyError β} {a : α} {e : PyError}
    (as : List α) (h : f a = .error e) : mapExcept f (a :: as) = .error e := by
  unfold mapExcept
  rw [h]

theorem mapExcept_cons_ok_err {f : α → Except PyError β} {a : α} {b : β} {e : PyError}
    {as : List α} (hfa : f a = .ok b) (hrest : mapExcept f as = .error e) :
    mapExcept f (a :: as) = .error e := by
  unfold mapExcept
  rw [hfa, hrest]

theorem mapExcept_cons_ok_ok {f : α → Except PyError β} {a : α} {b : β} {bs : List β}
    {as : List α} (hfa : f a = .ok b) (hrest : mapExcept f as = .ok bs) :
    mapExcept f (a :: as) = .ok (b :: bs) := by
  unfold mapExcept
  rw [hfa, hrest]

theorem mapExcept_cons_ok {f : α → Except PyError β} {a : α} {as : List α} {l' : List β}
    (h : mapExcept f (a :: as) = .ok l') :
    ∃ b bs, f a = .ok b ∧ mapExcept f as = .ok bs ∧ l' = b :: bs := by
  cases hfa : f a with
  | error e => rw [mapExcept_cons_err as hfa] at h; exact Except.noConfusion h
  | ok b =>
    cases hrest : mapExcept f as with
    | error e => rw [mapExcept_cons_ok_err hfa hrest] at h; exact Except.noConfusion h
    | ok bs =>
        rw [mapExcept_cons_ok_ok hfa hrest] at h
        exact ⟨b, bs, rfl, rfl, (Except.ok.inj h).symm⟩

theorem mapExcept_ok_length {f : α → Except PyError β} :
    ∀ {l : List α} {l' : List β}, mapExcept f l = .ok l' → l'.length = l.length := by
  intro l
  induction l with
  | nil =>
      intro l' h
      rw [mapExcept_nil] at h
      rw [← Except.ok.inj h]
      rfl
  | cons a as ih =>
      intro l' h
      obtain ⟨b, bs, _, hrest, hl⟩ := mapExcept_cons_ok h
      subst hl
      simp [ih hrest]

theorem mapExcept_ok_mem {f : α → Except PyError β} :
    ∀ {l : List α} {l' : List β}, mapExcept f l = .ok l' →
      ∀ b ∈ l', ∃ a ∈ l, f a = .ok b := by
  intro l
  induction l with
  | nil =>
      intro l' h b hb
      rw [mapExcept_nil] at h
      rw [← Except.ok.inj h] at hb
      exact absurd hb (List.not_mem_nil b)
  | cons a as ih =>
      intro l' h b hb
      obtain ⟨b0, bs, hfa, hrest, hl⟩ := mapExcept_cons_ok h
      subst hl
      rcases List.mem_cons.mp hb with hb | hb
      · exact ⟨a, List.mem_cons_self a as, hb ▸ hfa⟩
      · obtain ⟨a', ha', hfa'⟩ := ih hrest b hb
        exact ⟨a', List.mem_cons_of_mem a ha', hfa'⟩

theorem mapExcept_ok_get {f : α → Except PyError β} :
    ∀ {l : List α} {l' : List β}, mapExcept f l = .ok l' →
      ∀ i (hi : i < l.length) (hi' : i < l'.length),
        f (l.get ⟨i, hi⟩) = .ok (l'.get ⟨i, hi'⟩) := by
  intro l
  induction l with
  | nil => intro l' _ i hi; exact absurd hi (Nat.not_lt_zero i)
  | cons a as ih =>
      intro l' h i hi hi'
      obtain ⟨b, bs, hfa, hrest, hl⟩ := mapExcept_cons_ok h
      subst hl
      cases i with
      | zero => simpa using hfa
      | succ j =>
          have hj : j < as.length := Nat.lt_of_succ_lt_succ hi
          have hj' : j < bs.length := Nat.lt_of_succ_lt_succ hi'
          simpa using ih hrest j hj hj'

theorem mapExcept_error_mem {f : α → Except PyError β} :
    ∀ {l : List α} {e : PyError}, mapExcept f l = .error e → ∃ a ∈ l, f a = .error e := by
  intro l
  induction l with
  | nil => intro e h; rw [mapExcept_nil] at h; exact Except.noConfusion h
  | cons a as ih =>
      intro e h
      cases hfa : f a with
      | error e0 =>
          rw [mapExcept_cons_err as hfa] at h
          exact ⟨a, List.mem_cons_self a as, by rw [hfa, Except.error.inj h]⟩
      | ok b =>
          cases hrest : mapExcept f as with
          | error e0 =>
              rw [mapExcept_cons_ok_err hfa hrest] at h
              obtain ⟨a', ha', hfa'⟩ := ih ((Except.error.inj h) ▸ hrest)
              exact ⟨a', List.mem_cons_of_mem a ha', hfa'⟩
          | ok bs =>
              rw [mapExcept_cons_ok_ok hfa hrest] at h
              exact Except.noConfusion h

theorem mapExcept_error_of_mem {f : α → Except PyError β} {e : PyError} :
    ∀ {l : List α} {a : α}, a ∈ l → f a = .error e →
      ∃ e', mapExcept f l = .error e' := by
  intro l
  induction l with
  | nil => intro a ha; exact absurd ha (List.not_mem_nil a)
  | cons a0 as ih =>
      intro a ha hfa
      cases hfa0 : f a0 with
      | error e0 => exact ⟨e0, mapExcept_cons_err as hfa0⟩
      | ok b =>
          rcases List.mem_cons.mp ha with rfl | ha'
          · rw [hfa0] at hfa; exact Except.noConfusion hfa
          · obtain ⟨e', he'⟩ := ih ha' hfa
            exact ⟨e', mapExcept_cons_ok_err hfa0 he'⟩

theorem mapExcept_append_ok {f : α → Except PyError β} :
    ∀ {l1 l2 : List α} {b1 b2 : List β}, mapExcept f l1 = .ok b1 →
      mapExcept f l2 = .ok b2 → mapExcept f (l1 ++ l2) = .ok (b1 ++ b2) := by
  intro l1
  induction l1 with
  | nil =>
      intro l2 b1 b2 h1 h2
      rw [mapExcept_nil] at h1
      rw [← Except.ok.inj h1]
      simpa using h2
  | cons a as ih =>
      intro l2 b1 b2 h1 h2
      obtain ⟨b, bs, hfa, hrest, hl⟩ := mapExcept_cons_ok h1
      subst hl
      simpa using mapExcept_cons_ok_ok hfa (ih hrest h2)

theorem mapExcept_reverse_ok {f : α → Except PyError β} :
    ∀ {l : List α} {l' : List β}, mapExcept f l = .ok l' →
      mapExcept f l.reverse = .ok l'.reverse := by
  intro l
  induction l with
  | nil =>
      intro l' h
      rw [mapExcept_nil] at h
      rw [← Except.ok.inj h]
      exact mapExcept_nil
  | cons a as ih =>
      intro l' h
      obtain ⟨b, bs, hfa, hrest, hl⟩ := mapExcept_cons_ok h
      subst hl
      rw [List.reverse_cons, List.reverse_cons]
      exact mapExcept_append_ok (ih hrest) (mapExcept_cons_ok_ok hfa mapExcept_nil)

theorem mapExcept_congr {f g : α → Except PyError β} :
    ∀ {l : List α}, (∀ a ∈ l, f a = g a) → mapExcept f l = mapExcept g l := by
  intro l
  induction l with
  | nil => intro _; rfl
  | cons a as ih =>
      intro hfg
      unfold mapExcept
      rw [hfg a (List.mem_cons_self a as), ih fun a' ha' => hfg a' (List.mem_cons_of_mem a ha')]

theorem mapExcept_map {f : β → Except PyError γ} {g : α → β} :
    ∀ {l : List α}, mapExcept f (l.map g) = mapExcept (fun a => f (g a)) l := by
  intro l
  induction l with
  | nil => rfl
  | cons a as ih =>
      rw [List.map_cons]
      unfold mapExcept
      rw [ih]

theorem foldl_min_le_init : ∀ (as : List ℝ) (a : ℝ), as.foldl min a ≤ a := by
  intro as
  induction as with
  | nil => intro a; exact le_refl a
  | cons b bs ih =>
      intro a
      calc (b :: bs).foldl min a = bs.foldl min (min a b) := rfl
        _ ≤ min a b := ih (min a b)
        _ ≤ a := min_le_left a b

theorem foldl_min_le_mem : ∀ {as : List ℝ} {x : ℝ} (a : ℝ), x ∈ as → as.foldl min a ≤ x := by
  intro as
  induction as with
  | nil => intro x a hx; exact absurd hx (List.not_mem_nil x)
  | cons b bs ih =>
      intro x a hx
      rcases List.mem_cons.mp hx with rfl | hx'
      · calc (x :: bs).foldl min a = bs.foldl min (min a x) := rfl
          _ ≤ min a x := foldl_min_le_init bs (min a x)
          _ ≤ x := min_le_right a x
      · exact ih (min a b) hx'

theorem foldl_min_mem : ∀ (as : List ℝ) (a : ℝ), as.foldl min a ∈ a :: as := by
  intro as
  induction as with
  | nil => intro a; exact List.mem_cons_self a []
  | cons b bs ih =>
      intro a
      have h := ih (min a b)
      rcases List.mem_cons.mp h with h0 | h0
      · rcases min_choice a b with hm | hm
        · exact List.mem_cons.mpr (Or.inl (h0.trans hm))
        · exact List.mem_cons_of_mem a (List.mem_cons.mpr (Or.inl (h0.trans hm)))
      · exact List.mem_cons_of_mem a (List.mem_cons_of_mem b h0)

theorem init_le_foldl_max : ∀ (as : List ℝ) (a : ℝ), a ≤ as.foldl max a := by
  intro as
  induction as with
  | nil => intro a; exact le_refl a
  | cons b bs ih =>
      intro a
      calc a ≤ max a b := le_max_left a b
        _ ≤ bs.foldl max (max a b) := ih (max a b)
        _ = (b :: bs).foldl max a := rfl

theorem mem_le_foldl_max : ∀ {as : List ℝ} {x : ℝ} (a : ℝ), x ∈ as → x ≤ as.foldl max a := by
  intro as
  induction as with
  | nil => intro x a hx; exact absurd hx (List.not_mem_nil x)
  | cons b bs ih =>
      intro x a hx
      rcases List.mem_cons.mp hx with rfl | hx'
      · calc x ≤ max a x := le_max_right a x
          _ ≤ bs.foldl max (max a x) := init_le_foldl_max bs (max a x)
          _ = (x :: bs).foldl max a := rfl
      · exact ih (max a b) hx'

theorem foldl_max_mem : ∀ (as : List ℝ) (a : ℝ), as.foldl max a ∈ a :: as := by
  intro as
  induction as with
  | nil => intro a; exact List.mem_cons_self a []
  | cons b bs ih =>
      intro a
      have h := ih (max a b)
      rcases List.mem_cons.mp h with h0 | h0
      · rcases max_choice a b with hm | hm
        · exact List.mem_cons.mpr (Or.inl (h0.trans hm))
        · exact List.mem_cons_of_mem a (List.mem_cons.mpr (Or.inl (h0.trans hm)))
      · exact List.mem_cons_of_mem a (List.mem_cons_of_mem b h0)

theorem listMin_le {l : List ℝ} {x : ℝ} (hx : x ∈ l) : listMin l ≤ x := by
  cases l with
  | nil => exact absurd hx (List.not_mem_nil x)
  | cons a as =>
      rcases List.mem_cons.mp hx with rfl | hx'
      · exact foldl_min_le_init as x
      · exact foldl_min_le_mem a hx'

theorem le_listMax {l : List ℝ} {x : ℝ} (hx : x ∈ l) : x ≤ listMax l := by
  cases l with
  | nil => exact absurd hx (List.not_mem_nil x)
  | cons a as =>
      rcases List.mem_cons.mp hx with rfl | hx'
      · exact init_le_foldl_max as x
      · exact mem_le_foldl_max a hx'

theorem listMin_mem {l : List ℝ} (h : l ≠ []) : listMin l ∈ l := by
  cases l with
  | nil => exact absurd rfl h
  | cons a as => exact foldl_min_mem as a

theorem listMax_mem {l : List ℝ} (h : l ≠ []) : listMax l ∈ l := by
  cases l with
  | nil => exact absurd rfl h
  | cons a as => exact foldl_max_mem as a

theorem listMin_le_listMax {l : List ℝ} (h : l ≠ []) : listMin l ≤ listMax l :=
  le_listMax (listMin_mem h)

theorem listMin_reverse (l : List ℝ) : listMin l.reverse = listMin l := by
  cases l with
  | nil => rfl
  | cons a as =>
      have hne : (a :: as) ≠ [] := List.cons_ne_nil a as
      have hner : (a :: as).reverse ≠ [] := by simp
      apply le_antisymm
      · exact listMin_le (List.mem_reverse.mpr (listMin_mem hne))
      · exact listMin_le (List.mem_reverse.mp (listMin_mem hner))

theorem listMax_reverse (l : List ℝ) : listMax l.reverse = listMax l := by
  cases l with
  | nil => rfl
  | cons a as =>
      have hne : (a :: as) ≠ [] := List.cons_ne_nil a as
      have hner : (a :: as).reverse ≠ [] := by simp
      apply le_antisymm
      · exact le_listMax (List.mem_reverse.mp (listMax_mem hner))
      · exact le_listMax (List.mem_reverse.mpr (listMax_mem hne))

theorem listMin_const {l : List ℝ} {c : ℝ} (h : l ≠ []) (hc : ∀ x ∈ l, x = c) :
    listMin l = c :=
  hc (listMin l) (listMin_mem h)

theorem listMax_const {l : List ℝ} {c : ℝ} (h : l ≠ []) (hc : ∀ x ∈ l, x = c) :
    listMax l = c :=
  hc (listMax l) (listMax_mem h)

theorem adjPairs_length (l : List α) : (adjPairs l).length = l.length - 1 := by
  unfold adjPairs
  rw [List.length_zip, List.length_tail, List.length_dropLast, min_self]

theorem adjPairs_get (l : List α) (i : Nat) (h : i < (adjPairs l).length)
    (hi1 : i + 1 < l.length) (hi2 : i < l.length) :
    (adjPairs l).get ⟨i, h⟩ = (l.get ⟨i + 1, hi1⟩, l.get ⟨i, hi2⟩) := by
  unfold adjPairs at h ⊢
  simp [List.getElem_zip, List.getElem_tail, List.getElem_dropLast]

theorem mem_adjPairs_of_mem :
    ∀ {l : List α} {v : α}, v ∈ l → 2 ≤ l.length →
      ∃ p ∈ adjPairs l, p.1 = v ∨ p.2 = v := by
  intro l
  induction l with
  | nil => intro v hv; exact absurd hv (List.not_mem_nil v)
  | cons a as ih =>
      intro v hv hlen
      cases as with
      | nil => simp at hlen
      | cons b bs =>
          rcases List.mem_cons.mp hv with rfl | hv'
          · refine ⟨(b, v), ?_, Or.inr rfl⟩
            show (b, v) ∈ (b :: bs).zip (v :: (b :: bs).dropLast)
            exact List.mem_cons_self (b, v) _
          · cases bs with
            | nil =>
                have hb : v = b := by simpa using hv'
                subst hb
                refine ⟨(v, a), ?_, Or.inl rfl⟩
                show (v, a) ∈ [v].zip [a]
                simp
            | cons c cs =>
                obtain ⟨p, hp, hpv⟩ := ih hv' (by simp)
                refine ⟨p, ?_, hpv⟩
                show p ∈ (b :: c :: cs).zip ((a :: b :: c :: cs).dropLast)
                rw [List.dropLast_cons₂]
                exact List.mem_cons_of_mem (b, a) hp

theorem reverse_zip :
    ∀ {l1 : List α} {l2 : List β}, l1.length = l2.length →
      l1.reverse.zip l2.reverse = (l1.zip l2).reverse := by
  intro l1
  induction l1 with
  | nil =>
      intro l2 h
      cases l2 with
      | nil => rfl
      | cons b bs => simp at h
  | cons a as ih =>
      intro l2 h
      cases l2 with
      | nil => simp at h
      | cons b bs =>
          have hlen : as.length = bs.length := by simpa using h
          rw [List.reverse_cons, List.reverse_cons,
            List.zip_append (by simp [hlen]), ih hlen]
          simp

theorem adjPairs_reverse {l : List α} :
    adjPairs l.reverse = ((adjPairs l).map Prod.swap).reverse := by
  unfold adjPairs
  rw [List.tail_reverse, List.dropLast_reverse,
    reverse_zip (by rw [List.length_dropLast, List.length_tail]),
    ← List.zip_swap]

theorem clampedDot_symm (v1 v2 : ℝ × ℝ) : clampedDot v1 v2 = clampedDot v2 v1 := by
  unfold clampedDot
  rw [mul_comm (norm2 v1), mul_comm v1.1, mul_comm v1.2]

theorem angle_between_ok_intro {v1 v2 : ℝ × ℝ}
    (h : ¬(v1.1 ^ 2 + v1.2 ^ 2 = 0 ∨ v2.1 ^ 2 + v2.2 ^ 2 = 0)) :
    angle_between v1 v2 = .ok (Real.arccos (clampedDot v1 v2)) := by
  unfold angle_between
  rw [if_neg h]

theorem angle_between_err_intro {v1 v2 : ℝ × ℝ}
    (h : v1.1 ^ 2 + v1.2 ^ 2 = 0 ∨ v2.1 ^ 2 + v2.2 ^ 2 = 0) :
    angle_between v1 v2 =
      .error (.domainError "angle undefined for zero magnitude vector") := by
  unfold angle_between
  rw [if_pos h]

theorem angle_between_ok_elim {v1 v2 : ℝ × ℝ} {θ : ℝ}
    (h : angle_between v1 v2 = .ok θ) : θ = Real.arccos (clampedDot v1 v2) := by
  by_cases hc : v1.1 ^ 2 + v1.2 ^ 2 = 0 ∨ v2.1 ^ 2 + v2.2 ^ 2 = 0
  · rw [angle_between_err_intro hc] at h
    exact Except.noConfusion h
  · rw [angle_between_ok_intro hc] at h
    exact (Except.ok.inj h).symm

theorem angle_between_error_elim {v1 v2 : ℝ × ℝ} {e : PyError}
    (h : angle_between v1 v2 = .error e) :
    e = .domainError "angle undefined for zero magnitude vector" := by
  by_cases hc : v1.1 ^ 2 + v1.2 ^ 2 = 0 ∨ v2.1 ^ 2 + v2.2 ^ 2 = 0
  · rw [angle_between_err_intro hc] at h
    exact (Except.error.inj h).symm
  · rw [angle_between_ok_intro hc] at h
    exact Except.noConfusion h

theorem angle_between_symm (v1 v2 : ℝ × ℝ) : angle_between v1 v2 = angle_between v2 v1 := by
  unfold angle_between
  rw [clampedDot_symm]
  exact if_congr or_comm rfl rfl

/-- Every angle produced by `angle_between` lies in [0, π]. -/
theorem angle_between_range {v1 v2 : ℝ × ℝ} {θ : ℝ}
    (h : angle_between v1 v2 = .ok θ) : 0 ≤ θ ∧ θ ≤ Real.pi := by
  rw [angle_between_ok_elim h]
  exact ⟨Real.arccos_nonneg _, Real.arccos_le_pi _⟩

theorem compute_advanced_nonDF :
    compute_advanced .nonDF = .error (.typeError "path_obj must be pandas DataFrame") := rfl

theorem compute_advanced_no_keys {d : DataFrame}
    (h : ¬("x" ∈ d.keys ∧ "y" ∈ d.keys)) :
    compute_advanced (.df d) =
      .error (.valueError "the keys of path_obj must contain x and y") := by
  show (if "x" ∈ d.keys ∧ "y" ∈ d.keys then _ else _) = _
  rw [if_neg h]

theorem compute_advanced_short {d : DataFrame} (hk : "x" ∈ d.keys ∧ "y" ∈ d.keys)
    (hl : d.rows.length ≤ 2) :
    compute_advanced (.df d) =
      .error (.valueError "path_obj must contain at least 3 rows") := by
  show (if "x" ∈ d.keys ∧ "y" ∈ d.keys then _ else _) = _
  rw [if_pos hk, if_pos hl]

theorem compute_advanced_ok_intro {d : DataFrame} {ca : List ℝ}
    (hk : "x" ∈ d.keys ∧ "y" ∈ d.keys) (hl : 2 < d.rows.length)
    (hang : angles_of d.rows = .ok ca) :
    compute_advanced (.df d) =
      .ok { radius := radius_of d.rows
            center_angles := ca
            area_cov := area_cov_of (radius_of d.rows) ca
            area_rec := area_rec_of d.rows
            abs_distance := abs_distance_of d.rows } := by
  show (if "x" ∈ d.keys ∧ "y" ∈ d.keys then _ else _) = _
  rw [if_pos hk, if_neg (Nat.not_le.mpr hl), hang]

theorem compute_advanced_err_of_angles_err {d : DataFrame} {e : PyError}
    (hk : "x" ∈ d.keys ∧ "y" ∈ d.keys) (hl : 2 < d.rows.length)
    (hang : angles_of d.rows = .error e) :
    compute_advanced (.df d) = .error e := by
  show (if "x" ∈ d.keys ∧ "y" ∈ d.keys then _ else _) = _
  rw [if_pos hk, if_neg (Nat.not_le.mpr hl), hang]

theorem compute_advanced_ok_elim {d : DataFrame} {b : FeatureBundle}
    (h : compute_advanced (.df d) = .ok b) :
    ("x" ∈ d.keys ∧ "y" ∈ d.keys) ∧ 2 < d.rows.length ∧
      angles_of d.rows = .ok b.center_angles ∧
      b.radius = radius_of d.rows ∧
      b.area_cov = area_cov_of (radius_of d.rows) b.center_angles ∧
      b.area_rec = area_rec_of d.rows ∧
      b.abs_distance = abs_distance_of d.rows := by
  by_cases hk : "x" ∈ d.keys ∧ "y" ∈ d.keys
  · by_cases hl : d.rows.length ≤ 2
    · rw [compute_advanced_short hk hl] at h
      exact Except.noConfusion h
    · have hl' : 2 < d.rows.length := Nat.not_le.mp hl
      cases hang : angles_of d.rows with
      | error e =>
          rw [compute_advanced_err_of_angles_err hk hl' hang] at h
          exact Except.noConfusion h
      | ok ca =>
          rw [compute_advanced_ok_intro hk hl' hang] at h
          rw [← Except.ok.inj h]
          exact ⟨hk, hl', rfl, rfl, rfl, rfl, rfl⟩
  · rw [compute_advanced_no_keys hk] at h
    exact Except.noConfusion h

theorem vectors_of_length (rows : List (ℝ × ℝ)) : (vectors_of rows).length = rows.length := by
  unfold vectors_of
  rw [List.length_map]

theorem radius_of_length (rows : List (ℝ × ℝ)) : (radius_of rows).length = rows.length := by
  unfold radius_of
  rw [List.length_map, vectors_of_length]

theorem radius_of_nonneg {rows : List (ℝ × ℝ)} {r : ℝ} (hr : r ∈ radius_of rows) : 0 ≤ r := by
  unfold radius_of at hr
  obtain ⟨v, _, hv⟩ := List.mem_map.mp hr
  rw [← hv]
  exact Real.sqrt_nonneg _

theorem angles_of_ok_length {rows : List (ℝ × ℝ)} {ca : List ℝ}
    (h : angles_of rows = .ok ca) : ca.length = rows.length - 1 := by
  unfold angles_of at h
  rw [mapExcept_ok_length h, adjPairs_length, vectors_of_length]

theorem angles_of_ok_range {rows : List (ℝ × ℝ)} {ca : List ℝ}
    (h : angles_of rows = .ok ca) : ∀ θ ∈ ca, 0 ≤ θ ∧ θ ≤ Real.pi := by
  intro θ hθ
  unfold angles_of at h
  obtain ⟨vv, _, hvv⟩ := mapExcept_ok_mem h θ hθ
  exact angle_between_range hvv

theorem angles_of_error_domain {rows : List (ℝ × ℝ)} {e : PyError}
    (h : angles_of rows = .error e) :
    e = .domainError "angle undefined for zero magnitude vector" := by
  unfold angles_of at h
  obtain ⟨vv, _, hvv⟩ := mapExcept_error_mem h
  exact angle_between_error_elim hvv

/-- C1: for every accepted input of N rows, the returned bundle has
`radius` of length N and `center_angles` of length N - 1. -/
theorem C1_shape_invariant (d : DataFrame) (b : FeatureBundle)
    (h : compute_advanced (.df d) = .ok b) :
    b.radius.length = d.rows.length ∧
      b.center_angles.length = d.rows.length - 1 := by
  obtain ⟨_, _, hang, hrad, _, _, _⟩ := compute_advanced_ok_elim h
  exact ⟨by rw [hrad, radius_of_length], angles_of_ok_length hang⟩

/-- C2: fail-fast validation: TypeError on non-DataFrame input, ValueError
on missing x/y keys, ValueError on 2 or fewer rows, and any 3-row input
with the x and y keys passes validation (it can only fail later with the
angle domain error, never with TypeError or ValueError). -/
theorem C2_validation :
    compute_advanced .nonDF = .error (.typeError "path_obj must be pandas DataFrame") ∧
    (∀ d : DataFrame, ¬("x" ∈ d.keys ∧ "y" ∈ d.keys) →
      compute_advanced (.df d) =
        .error (.valueError "the keys of path_obj must contain x and y")) ∧
    (∀ d : DataFrame, ("x" ∈ d.keys ∧ "y" ∈ d.keys) → d.rows.length ≤ 2 →
      compute_advanced (.df d) =
        .error (.valueError "path_obj must contain at least 3 rows")) ∧
    (∀ d : DataFrame, ("x" ∈ d.keys ∧ "y" ∈ d.keys) → d.rows.length = 3 →
      ∀ msg, compute_advanced (.df d) ≠ .error (.typeError msg) ∧
        compute_advanced (.df d) ≠ .error (.valueError msg)) := by
  refine ⟨compute_advanced_nonDF, fun d h => compute_advanced_no_keys h,
    fun d hk hl => compute_advanced_short hk hl, fun d hk h3 msg => ?_⟩
  have hl : 2 < d.rows.length := by omega
  cases hang : angles_of d.rows with
  | error e =>
      rw [compute_advanced_err_of_angles_err hk hl hang, angles_of_error_domain hang]
      exact ⟨fun hc => PyError.noConfusion (Except.error.inj hc),
        fun hc => PyError.noConfusion (Except.error.inj hc)⟩
  | ok ca =>
      rw [compute_advanced_ok_intro hk hl hang]
      exact ⟨fun hc => Except.noConfusion hc, fun hc => Except.noConfusion hc⟩

/-- C3: if some radius vector has zero magnitude (a path point coincides
with the centroid), `compute_advanced` propagates a domain error instead of
returning a result. -/
theorem C3_zero_vector_domain_error (d : DataFrame)
    (hk : "x" ∈ d.keys ∧ "y" ∈ d.keys) (hl : 2 < d.rows.length)
    (hz : ∃ v ∈ vectors_of d.rows, v.1 ^ 2 + v.2 ^ 2 = 0) :
    compute_advanced (.df d) =
      .error (.domainError "angle undefined for zero magnitude vector") := by
  obtain ⟨v, hv, hv0⟩ := hz
  have hlen : 2 ≤ (vectors_of d.rows).length := by rw [vectors_of_length]; omega
  obtain ⟨p, hp, hpv⟩ := mem_adjPairs_of_mem hv hlen
  have herr : angle_between p.1 p.2 =
      .error (.domainError "angle undefined for zero magnitude vector") := by
    rcases hpv with h1 | h1
    · exact angle_between_err_intro (Or.inl (h1 ▸ hv0))
    · exact angle_between_err_intro (Or.inr (h1 ▸ hv0))
  obtain ⟨e', he'⟩ :=
    mapExcept_error_of_mem (f := fun vv => angle_between vv.1 vv.2) hp herr
  have hang : angles_of d.rows = .error e' := he'
  rw [compute_advanced_err_of_angles_err hk hl hang, angles_of_error_domain hang]

/-- C4: the centroid is the bounding-box midpoint (in general different
from the arithmetic mean of the points), and `radius` is the list of
Euclidean norms of point - centroid in input row order, each non-negative. -/
theorem C4_centroid_radius (d : DataFrame) (b : FeatureBundle)
    (h : compute_advanced (.df d) = .ok b) :
    center_of d.rows =
      ((xmin d.rows + xmax d.rows) / 2, (ymin d.rows + ymax d.rows) / 2) ∧
    b.radius = d.rows.map (fun p =>
      Real.sqrt ((p.1 - (center_of d.rows).1) ^ 2 + (p.2 - (center_of d.rows).2) ^ 2)) ∧
    (∀ r ∈ b.radius, 0 ≤ r) ∧
    (∃ rows0 : List (ℝ × ℝ), center_of rows0 ≠ arithmetic_mean rows0) := by
  obtain ⟨_, _, _, hrad, _, _, _⟩ := compute_advanced_ok_elim h
  refine ⟨rfl, ?_, ?_, ?_⟩
  · rw [hrad]
    unfold radius_of vectors_of
    rw [List.map_map]
    rfl
  · intro r hr
    rw [hrad] at hr
    exact radius_of_nonneg hr
  · refine ⟨[(0, 0), (0, 0), (3, 0)], ?_⟩
    intro hc
    have hx := congrArg Prod.fst hc
    unfold center_of arithmetic_mean xmin xmax at hx
    norm_num [listMin, listMax, List.foldl_cons, List.foldl_nil, min_def, max_def] at hx

/-- C5: each center angle is the arccos of the clamped normalized dot
product of the radius vectors at positions i+1 and i, and lies in [0, π]. -/
theorem C5_center_angles (d : DataFrame) (b : FeatureBundle)
    (h : compute_advanced (.df d) = .ok b) :
    (∀ θ ∈ b.center_angles, 0 ≤ θ ∧ θ ≤ Real.pi) ∧
    (∀ i (hi : i < b.center_angles.length) (h1 : i + 1 < (vectors_of d.rows).length)
      (h2 : i < (vectors_of d.rows).length),
      b.center_angles.get ⟨i, hi⟩ =
        Real.arccos (clampedDot ((vectors_of d.rows).get ⟨i + 1, h1⟩)
          ((vectors_of d.rows).get ⟨i, h2⟩))) := by
  obtain ⟨_, _, hang, _, _, _, _⟩ := compute_advanced_ok_elim h
  refine ⟨angles_of_ok_range hang, fun i hi h1 h2 => ?_⟩
  have hlen : b.center_angles.length = (adjPairs (vectors_of d.rows)).length := by
    rw [adjPairs_length, angles_of_ok_length hang, vectors_of_length]
  have hip : i < (adjPairs (vectors_of d.rows)).length := hlen ▸ hi
  have hget := mapExcept_ok_get hang i hip hi
  rw [adjPairs_get _ i hip h1 h2] at hget
  exact angle_between_ok_elim hget

/-- C6: `area_cov` is the sum over adjacent radius pairs of
`radius[i+1] * radius[i] * sin(center_angles[i]) / 2`, and is
non-negative. -/
theorem C6_area_cov (d : DataFrame) (b : FeatureBundle)
    (h : compute_advanced (.df d) = .ok b) :
    b.area_cov = (((adjPairs b.radius).zip b.center_angles).map
      (fun p => p.1.1 * p.1.2 * Real.sin p.2 / 2)).sum ∧
    0 ≤ b.area_cov := by
  obtain ⟨_, _, hang, hrad, hcov, _, _⟩ := compute_advanced_ok_elim h
  have hform : b.area_cov = (((adjPairs b.radius).zip b.center_angles).map
      (fun p => p.1.1 * p.1.2 * Real.sin p.2 / 2)).sum := by
    rw [hcov, hrad]
    rfl
  refine ⟨hform, ?_⟩
  rw [hform]
  apply List.sum_nonneg
  intro x hx
  obtain ⟨p, hp, hpx⟩ := List.mem_map.mp hx
  obtain ⟨hp1, hp2⟩ := List.of_mem_zip hp
  obtain ⟨hr1, hr2⟩ := List.of_mem_zip hp1
  have hrr1 : p.1.1 ∈ b.radius := List.mem_of_mem_tail hr1
  have hrr2 : p.1.2 ∈ b.radius := List.dropLast_subset _ hr2
  have h1 : 0 ≤ p.1.1 := radius_of_nonneg (hrad ▸ hrr1)
  have h2 : 0 ≤ p.1.2 := radius_of_nonneg (hrad ▸ hrr2)
  have h3 : 0 ≤ Real.sin p.2 := by
    obtain ⟨ha, hb⟩ := angles_of_ok_range hang p.2 hp2
    exact Real.sin_nonneg_of_nonneg_of_le_pi ha hb
  rw [← hpx]
  positivity

/-- C7: `area_rec` is the bounding-rectangle area, non-negative, and zero
whenever all points share the same x value or all share the same y value. -/
theorem C7_area_rec (d : DataFrame) (b : FeatureBundle)
    (h : compute_advanced (.df d) = .ok b) :
    b.area_rec = (xmax d.rows - xmin d.rows) * (ymax d.rows - ymin d.rows) ∧
    0 ≤ b.area_rec ∧
    (∀ c : ℝ, ((∀ p ∈ d.rows, p.1 = c) ∨ (∀ p ∈ d.rows, p.2 = c)) →
      b.area_rec = 0) := by
  obtain ⟨_, hl, _, _, _, hrec, _⟩ := compute_advanced_ok_elim h
  have hne : d.rows ≠ [] := by
    intro hc
    rw [hc] at hl
    exact absurd hl (by simp)
  have hnex : d.rows.map Prod.fst ≠ [] := by
    simpa using hne
  have hney : d.rows.map Prod.snd ≠ [] := by
    simpa using hne
  refine ⟨hrec, ?_, ?_⟩
  · rw [hrec]
    unfold area_rec_of
    apply mul_nonneg
    · exact sub_nonneg.mpr (listMin_le_listMax hnex)
    · exact sub_nonneg.mpr (listMin_le_listMax hney)
  · intro c hc
    rw [hrec]
    unfold area_rec_of xmin xmax ymin ymax
    rcases hc with hx | hy
    · have hall : ∀ z ∈ d.rows.map Prod.fst, z = c := by
        intro z hz
        obtain ⟨p, hp, hpz⟩ := List.mem_map.mp hz
        rw [← hpz]
        exact hx p hp
      rw [listMin_const hnex hall, listMax_const hnex hall]
      ring
    · have hall : ∀ z ∈ d.rows.map Prod.snd, z = c := by
        intro z hz
        obtain ⟨p, hp, hpz⟩ := List.mem_map.mp hz
        rw [← hpz]
        exact hy p hp
      rw [listMin_const hney hall, listMax_const hney hall]
      ring

/-- C8: `abs_distance` is the Euclidean distance between the first and last
rows of the input, and is non-negative. -/
theorem C8_abs_distance (d : DataFrame) (b : FeatureBundle)
    (h : compute_advanced (.df d) = .ok b) :
    b.abs_distance =
      Real.sqrt (((d.rows.getLastD (0, 0)).1 - (d.rows.headD (0, 0)).1) ^ 2 +
        ((d.rows.getLastD (0, 0)).2 - (d.rows.headD (0, 0)).2) ^ 2) ∧
    0 ≤ b.abs_distance := by
  obtain ⟨_, _, _, _, _, _, hdist⟩ := compute_advanced_ok_elim h
  exact ⟨hdist, by rw [hdist]; exact Real.sqrt_nonneg _⟩

theorem squareDF_rows : squareDF.rows = [(0, 0), (2, 0), (2, 2), (0, 2)] := rfl

theorem square_xmin : xmin squareDF.rows = 0 := by
  norm_num [xmin, squareDF_rows, listMin, List.foldl_cons, List.foldl_nil]

theorem square_xmax : xmax squareDF.rows = 2 := by
  norm_num [xmax, squareDF_rows, listMax, List.foldl_cons, List.foldl_nil]

theorem square_ymin : ymin squareDF.rows = 0 := by
  norm_num [ymin, squareDF_rows, listMin, List.foldl_cons, List.foldl_nil]

theorem square_ymax : ymax squareDF.rows = 2 := by
  norm_num [ymax, squareDF_rows, listMax, List.foldl_cons, List.foldl_nil]

theorem square_center : center_of squareDF.rows = (1, 1) := by
  unfold center_of
  rw [square_xmin, square_xmax, square_ymin, square_ymax]
  norm_num

theorem square_vectors :
    vectors_of squareDF.rows = [(-1, -1), (1, -1), (1, 1), (-1, 1)] := by
  unfold vectors_of
  rw [square_center, squareDF_rows]
  norm_num [Prod.ext_iff]

theorem square_radius :
    radius_of squareDF.rows = [Real.sqrt 2, Real.sqrt 2, Real.sqrt 2, Real.sqrt 2] := by
  unfold radius_of
  rw [square_vectors]
  norm_num [norm2]

theorem square_angle1 :
    angle_between ((1 : ℝ), (-1 : ℝ)) ((-1 : ℝ), (-1 : ℝ)) = .ok (Real.pi / 2) := by
  have hc : clampedDot ((1 : ℝ), (-1 : ℝ)) ((-1 : ℝ), (-1 : ℝ)) = 0 := by
    unfold clampedDot
    norm_num
  rw [angle_between_ok_intro (by norm_num), hc, Real.arccos_zero]

theorem square_angle2 :
    angle_between ((1 : ℝ), (1 : ℝ)) ((1 : ℝ), (-1 : ℝ)) = .ok (Real.pi / 2) := by
  have hc : clampedDot ((1 : ℝ), (1 : ℝ)) ((1 : ℝ), (-1 : ℝ)) = 0 := by
    unfold clampedDot
    norm_num
  rw [angle_between_ok_intro (by norm_num), hc, Real.arccos_zero]

theorem square_angle3 :
    angle_between ((-1 : ℝ), (1 : ℝ)) ((1 : ℝ), (1 : ℝ)) = .ok (Real.pi / 2) := by
  have hc : clampedDot ((-1 : ℝ), (1 : ℝ)) ((1 : ℝ), (1 : ℝ)) = 0 := by
    unfold clampedDot
    norm_num
  rw [angle_between_ok_intro (by norm_num), hc, Real.arccos_zero]

theorem square_angles :
    angles_of squareDF.rows = .ok [Real.pi / 2, Real.pi / 2, Real.pi / 2] := by
  unfold angles_of
  rw [square_vectors]
  have hadj : adjPairs ([(-1, -1), (1, -1), (1, 1), (-1, 1)] : List (ℝ × ℝ)) =
      [((1, -1), (-1, -1)), ((1, 1), (1, -1)), ((-1, 1), (1, 1))] := rfl
  rw [hadj]
  exact mapExcept_cons_ok_ok square_angle1
    (mapExcept_cons_ok_ok square_angle2
      (mapExcept_cons_ok_ok square_angle3 mapExcept_nil))

theorem square_area_cov :
    area_cov_of [Real.sqrt 2, Real.sqrt 2, Real.sqrt 2, Real.sqrt 2]
      [Real.pi / 2, Real.pi / 2, Real.pi / 2] = 3 := by
  unfold area_cov_of
  have hadj : adjPairs [Real.sqrt 2, Real.sqrt 2, Real.sqrt 2, Real.sqrt 2] =
      [(Real.sqrt 2, Real.sqrt 2), (Real.sqrt 2, Real.sqrt 2),
        (Real.sqrt 2, Real.sqrt 2)] := rfl
  rw [hadj]
  have h2 : Real.sqrt 2 * Real.sqrt 2 = 2 := Real.mul_self_sqrt (by norm_num)
  norm_num [Real.sin_pi_div_two, h2]

theorem square_area_rec : area_rec_of squareDF.rows = 4 := by
  unfold area_rec_of
  rw [square_xmin, square_xmax, square_ymin, square_ymax]
  norm_num

theorem square_abs_distance : abs_distance_of squareDF.rows = 2 := by
  unfold abs_distance_of
  rw [squareDF_rows]
  norm_num [List.getLastD, List.headD]
  rw [show (4 : ℝ) = 2 ^ 2 by norm_num, Real.sqrt_sq (by norm_num)]

theorem square_ok : compute_advanced (.df squareDF) = .ok squareBundle := by
  have hk : "x" ∈ squareDF.keys ∧ "y" ∈ squareDF.keys := ⟨by simp [squareDF], by simp [squareDF]⟩
  have hl : 2 < squareDF.rows.length := by rw [squareDF_rows]; norm_num
  have h := compute_advanced_ok_intro hk hl square_angles
  rw [h]
  have hb : ({ radius := radius_of squareDF.rows
               center_angles := [Real.pi / 2, Real.pi / 2, Real.pi / 2]
               area_cov := area_cov_of (radius_of squareDF.rows)
                 [Real.pi / 2, Real.pi / 2, Real.pi / 2]
               area_rec := area_rec_of squareDF.rows
               abs_distance := abs_distance_of squareDF.rows } : FeatureBundle) =
      squareBundle := by
    unfold squareBundle
    rw [square_radius, square_area_cov, square_area_rec, square_abs_distance]
  rw [hb]

/-- C9: on the square path [(0,0), (2,0), (2,2), (0,2)] the centroid is
(1,1), `area_rec` is 4, every radius is √2, and `abs_distance` is 2. -/
theorem C9_square_example :
    center_of squareDF.rows = (1, 1) ∧
    ∃ b, compute_advanced (.df squareDF) = .ok b ∧ b.area_rec = 4 ∧
      b.radius = [Real.sqrt 2, Real.sqrt 2, Real.sqrt 2, Real.sqrt 2] ∧
      b.abs_distance = 2 :=
  ⟨square_center, squareBundle, square_ok, rfl, rfl, rfl⟩

theorem reverse_headD (l : List (ℝ × ℝ)) (d : ℝ × ℝ) : l.reverse.headD d = l.getLastD d := by
  cases l with
  | nil => rfl
  | cons a as =>
      rw [List.headD_eq_head?, List.head?_reverse, List.getLastD_eq_getLast?]

theorem reverse_getLastD (l : List (ℝ × ℝ)) (d : ℝ × ℝ) :
    l.reverse.getLastD d = l.headD d := by
  cases l with
  | nil => rfl
  | cons a as =>
      rw [List.getLastD_eq_getLast?, List.getLast?_reverse, List.headD_eq_head?]

theorem xmin_reverse (rows : List (ℝ × ℝ)) : xmin rows.reverse = xmin rows := by
  unfold xmin
  rw [List.map_reverse, listMin_reverse]

theorem xmax_reverse (rows : List (ℝ × ℝ)) : xmax rows.reverse = xmax rows := by
  unfold xmax
  rw [List.map_reverse, listMax_reverse]

theorem ymin_reverse (rows : List (ℝ × ℝ)) : ymin rows.reverse = ymin rows := by
  unfold ymin
  rw [List.map_reverse, listMin_reverse]

theorem ymax_reverse (rows : List (ℝ × ℝ)) : ymax rows.reverse = ymax rows := by
  unfold ymax
  rw [List.map_reverse, listMax_reverse]

theorem area_rec_of_reverse (rows : List (ℝ × ℝ)) :
    area_rec_of rows.reverse = area_rec_of rows := by
  unfold area_rec_of
  rw [xmin_reverse, xmax_reverse, ymin_reverse, ymax_reverse]

theorem center_of_reverse (rows : List (ℝ × ℝ)) :
    center_of rows.reverse = center_of rows := by
  unfold center_of
  rw [xmin_reverse, xmax_reverse, ymin_reverse, ymax_reverse]

theorem vectors_of_reverse (rows : List (ℝ × ℝ)) :
    vectors_of rows.reverse = (vectors_of rows).reverse := by
  unfold vectors_of
  rw [center_of_reverse, List.map_reverse]

theorem radius_of_reverse (rows : List (ℝ × ℝ)) :
    radius_of rows.reverse = (radius_of rows).reverse := by
  unfold radius_of
  rw [vectors_of_reverse, List.map_reverse]

theorem abs_distance_of_reverse (rows : List (ℝ × ℝ)) :
    abs_distance_of rows.reverse = abs_distance_of rows := by
  unfold abs_distance_of
  rw [reverse_headD, reverse_getLastD]
  congr 1
  ring

theorem angles_of_reverse_ok {rows : List (ℝ × ℝ)} {ca : List ℝ}
    (h : angles_of rows = .ok ca) : angles_of rows.reverse = .ok ca.reverse := by
  unfold angles_of at h ⊢
  rw [vectors_of_reverse, adjPairs_reverse]
  apply mapExcept_reverse_ok
  rw [mapExcept_map]
  exact (mapExcept_congr fun p _ => angle_between_symm p.2 p.1).trans h

theorem area_cov_of_reverse {r θ : List ℝ} (hlen : (adjPairs r).length = θ.length) :
    area_cov_of r.reverse θ.reverse = area_cov_of r θ := by
  unfold area_cov_of
  rw [adjPairs_reverse, reverse_zip (by rw [List.length_map]; exact hlen),
    List.map_reverse, List.sum_reverse, List.zip_map_left, List.map_map]
  congr 1
  apply List.map_congr_left
  intro p _
  show (Prod.map Prod.swap id p).1.1 * (Prod.map Prod.swap id p).1.2 *
      Real.sin (Prod.map Prod.swap id p).2 / 2 = p.1.1 * p.1.2 * Real.sin p.2 / 2
  simp only [Prod.map, Prod.swap, id]
  ring

/-- C10: on the row-reversed path, `compute_advanced` succeeds with the same
`area_rec`, `area_cov` and `abs_distance`, the reversed `radius` sequence,
and the reversed `center_angles` sequence. -/
theorem C10_reverse_path (d : DataFrame) (b : FeatureBundle)
    (h : compute_advanced (.df d) = .ok b) :
    compute_advanced (.df (reverseDF d)) =
      .ok { radius := b.radius.reverse
            center_angles := b.center_angles.reverse
            area_cov := b.area_cov
            area_rec := b.area_rec
            abs_distance := b.abs_distance } := by
  obtain ⟨hk, hl, hang, hrad, hcov, hrec, hdist⟩ := compute_advanced_ok_elim h
  have hk' : "x" ∈ (reverseDF d).keys ∧ "y" ∈ (reverseDF d).keys := hk
  have hl' : 2 < (reverseDF d).rows.length := by
    show 2 < d.rows.reverse.length
    rw [List.length_reverse]
    exact hl
  have hang' : angles_of (reverseDF d).rows = .ok b.center_angles.reverse :=
    angles_of_reverse_ok hang
  rw [compute_advanced_ok_intro hk' hl' hang']
  have hlenpair : (adjPairs (radius_of d.rows)).length = b.center_angles.length := by
    rw [adjPairs_length, radius_of_length, angles_of_ok_length hang]
  have h2 : area_cov_of (radius_of (reverseDF d).rows) b.center_angles.reverse =
      b.area_cov := by
    show area_cov_of (radius_of d.rows.reverse) b.center_angles.reverse = b.area_cov
    rw [radius_of_reverse, area_cov_of_reverse hlenpair]
    exact hcov.symm
  have h1 : radius_of (reverseDF d).rows = b.radius.reverse := by
    show radius_of d.rows.reverse = b.radius.reverse
    rw [radius_of_reverse, hrad]
  have h3 : area_rec_of (reverseDF d).rows = b.area_rec := by
    show area_rec_of d.rows.reverse = b.area_rec
    rw [area_rec_of_reverse]
    exact hrec.symm
  have h4 : abs_distance_of (reverseDF d).rows = b.abs_distance := by
    show abs_distance_of d.rows.reverse = b.abs_distance
    rw [abs_distance_of_reverse]
    exact hdist.symm
  rw [h2, h1, h3, h4]

theorem lineDF_rows : lineDF.rows = [(1, 0), (1, 1), (1, 3)] := rfl

theorem norm2_fst_zero (y : ℝ) : norm2 ((0 : ℝ), y) = |y| := by
  unfold norm2
  rw [show (0 : ℝ) ^ 2 + y ^ 2 = y ^ 2 by ring, Real.sqrt_sq_eq_abs]

theorem line_xmin : xmin lineDF.rows = 1 := by
  norm_num [xmin, lineDF_rows, listMin, List.foldl_cons, List.foldl_nil]

theorem line_xmax : xmax lineDF.rows = 1 := by
  norm_num [xmax, lineDF_rows, listMax, List.foldl_cons, List.foldl_nil]

theorem line_ymin : ymin lineDF.rows = 0 := by
  norm_num [ymin, lineDF_rows, listMin, List.foldl_cons, List.foldl_nil]

theorem line_ymax : ymax lineDF.rows = 3 := by
  norm_num [ymax, lineDF_rows, listMax, List.foldl_cons, List.foldl_nil]

theorem line_center : center_of lineDF.rows = (1, 3 / 2) := by
  unfold center_of
  rw [line_xmin, line_xmax, line_ymin, line_ymax]
  norm_num

theorem line_vectors :
    vectors_of lineDF.rows = [(0, -(3 / 2)), (0, -(1 / 2)), (0, 3 / 2)] := by
  unfold vectors_of
  rw [line_center, lineDF_rows]
  norm_num [Prod.ext_iff]

theorem line_radius : radius_of lineDF.rows = [3 / 2, 1 / 2, 3 / 2] := by
  unfold radius_of
  rw [line_vectors]
  have h1 : norm2 ((0 : ℝ), -(3 / 2)) = 3 / 2 := by rw [norm2_fst_zero]; norm_num
  have h2 : norm2 ((0 : ℝ), -(1 / 2)) = 1 / 2 := by rw [norm2_fst_zero]; norm_num
  have h3 : norm2 ((0 : ℝ), 3 / 2) = 3 / 2 := by rw [norm2_fst_zero]; norm_num
  rw [List.map_cons, List.map_cons, List.map_cons, List.map_nil, h1, h2, h3]

theorem line_angle1 :
    angle_between ((0 : ℝ), -(1 / 2 : ℝ)) ((0 : ℝ), -(3 / 2 : ℝ)) = .ok 0 := by
  have hn1 : norm2 ((0 : ℝ), -(1 / 2 : ℝ)) = 1 / 2 := by rw [norm2_fst_zero]; norm_num
  have hn2 : norm2 ((0 : ℝ), -(3 / 2 : ℝ)) = 3 / 2 := by rw [norm2_fst_zero]; norm_num
  have hc : clampedDot ((0 : ℝ), -(1 / 2 : ℝ)) ((0 : ℝ), -(3 / 2 : ℝ)) = 1 := by
    unfold clampedDot
    rw [hn1, hn2]
    norm_num
  rw [angle_between_ok_intro (by norm_num), hc, Real.arccos_one]

theorem line_angle2 :
    angle_between ((0 : ℝ), (3 / 2 : ℝ)) ((0 : ℝ), -(1 / 2 : ℝ)) = .ok Real.pi := by
  have hn1 : norm2 ((0 : ℝ), (3 / 2 : ℝ)) = 3 / 2 := by rw [norm2_fst_zero]; norm_num
  have hn2 : norm2 ((0 : ℝ), -(1 / 2 : ℝ)) = 1 / 2 := by rw [norm2_fst_zero]; norm_num
  have hc : clampedDot ((0 : ℝ), (3 / 2 : ℝ)) ((0 : ℝ), -(1 / 2 : ℝ)) = -1 := by
    unfold clampedDot
    rw [hn1, hn2]
    norm_num
  rw [angle_between_ok_intro (by norm_num), hc, Real.arccos_neg_one]

theorem line_angles : angles_of lineDF.rows = .ok [0, Real.pi] := by
  unfold angles_of
  rw [line_vectors]
  have hadj : adjPairs
      ([((0 : ℝ), -(3 / 2 : ℝ)), (0, -(1 / 2)), (0, 3 / 2)] : List (ℝ × ℝ)) =
      [((0, -(1 / 2)), (0, -(3 / 2))), ((0, 3 / 2), (0, -(1 / 2)))] := rfl
  rw [hadj]
  exact mapExcept_cons_ok_ok line_angle1 (mapExcept_cons_ok_ok line_angle2 mapExcept_nil)

theorem line_area_cov : area_cov_of [3 / 2, 1 / 2, 3 / 2] [0, Real.pi] = 0 := by
  unfold area_cov_of
  have hadj : adjPairs ([3 / 2, 1 / 2, 3 / 2] : List ℝ) =
      [(1 / 2, 3 / 2), (3 / 2, 1 / 2)] := rfl
  rw [hadj]
  norm_num [Real.sin_zero, Real.sin_pi]

theorem line_area_rec : area_rec_of lineDF.rows = 0 := by
  unfold area_rec_of
  rw [line_xmin, line_xmax, line_ymin, line_ymax]
  norm_num

theorem line_abs_distance : abs_distance_of lineDF.rows = 3 := by
  unfold abs_distance_of
  rw [lineDF_rows]
  norm_num [List.getLastD, List.headD]
  rw [show (9 : ℝ) = 3 ^ 2 by norm_num, Real.sqrt_sq (by norm_num)]

theorem line_ok : compute_advanced (.df lineDF) = .ok lineBundle := by
  have hk : "x" ∈ lineDF.keys ∧ "y" ∈ lineDF.keys := ⟨by simp [lineDF], by simp [lineDF]⟩
  have hl : 2 < lineDF.rows.length := by rw [lineDF_rows]; norm_num
  have h := compute_advanced_ok_intro hk hl line_angles
  rw [h]
  have hb : ({ radius := radius_of lineDF.rows
               center_angles := [0, Real.pi]
               area_cov := area_cov_of (radius_of lineDF.rows) [0, Real.pi]
               area_rec := area_rec_of lineDF.rows
               abs_distance := abs_distance_of lineDF.rows } : FeatureBundle) =
      lineBundle := by
    unfold lineBundle
    rw [line_radius, line_area_cov, line_area_rec, line_abs_distance]
  rw [hb]

theorem centerDF_rows : centerDF.rows = [(0, 0), (1, 1), (2, 2)] := rfl

theorem center_xmin : xmin centerDF.rows = 0 := by
  norm_num [xmin, centerDF_rows, listMin, List.foldl_cons, List.foldl_nil]

theorem center_xmax : xmax centerDF.rows = 2 := by
  norm_num [xmax, centerDF_rows, listMax, List.foldl_cons, List.foldl_nil]

theorem center_ymin : ymin centerDF.rows = 0 := by
  norm_num [ymin, centerDF_rows, listMin, List.foldl_cons, List.foldl_nil]

theorem center_ymax : ymax centerDF.rows = 2 := by
  norm_num [ymax, centerDF_rows, listMax, List.foldl_cons, List.foldl_nil]

theorem center_center : center_of centerDF.rows = (1, 1) := by
  unfold center_of
  rw [center_xmin, center_xmax, center_ymin, center_ymax]
  norm_num

theorem center_vectors :
    vectors_of centerDF.rows = [(-1, -1), (0, 0), (1, 1)] := by
  unfold vectors_of
  rw [center_center, centerDF_rows]
  norm_num [Prod.ext_iff]

theorem C1_witness :
    squareBundle.radius.length = squareDF.rows.length ∧
    squareBundle.center_angles.length = squareDF.rows.length - 1 :=
  C1_shape_invariant squareDF squareBundle square_ok

theorem C2_witness :
    compute_advanced .nonDF = .error (.typeError "path_obj must be pandas DataFrame") ∧
    compute_advanced (.df noKeysDF) =
      .error (.valueError "the keys of path_obj must contain x and y") ∧
    compute_advanced (.df shortDF) =
      .error (.valueError "path_obj must contain at least 3 rows") ∧
    (compute_advanced (.df lineDF) ≠ .error (.typeError "boom") ∧
      compute_advanced (.df lineDF) ≠ .error (.valueError "boom")) :=
  ⟨C2_validation.1,
    C2_validation.2.1 noKeysDF (by simp [noKeysDF]),
    C2_validation.2.2.1 shortDF ⟨by simp [shortDF], by simp [shortDF]⟩ (by simp [shortDF]),
    C2_validation.2.2.2 lineDF ⟨by simp [lineDF], by simp [lineDF]⟩ rfl "boom"⟩

theorem C3_witness :
    compute_advanced (.df centerDF) =
      .error (.domainError "angle undefined for zero magnitude vector") :=
  C3_zero_vector_domain_error centerDF ⟨by simp [centerDF], by simp [centerDF]⟩
    (by rw [centerDF_rows]; norm_num)
    ⟨(0, 0), by rw [center_vectors]; simp, by norm_num⟩

theorem C4_witness :
    center_of squareDF.rows =
      ((xmin squareDF.rows + xmax squareDF.rows) / 2,
        (ymin squareDF.rows + ymax squareDF.rows) / 2) ∧
    0 ≤ squareBundle.radius.headD 0 := by
  have h := C4_centroid_radius squareDF squareBundle square_ok
  exact ⟨h.1, h.2.2.1 _ (by simp [squareBundle])⟩

theorem C5_witness :
    (0 ≤ Real.pi / 2 ∧ Real.pi / 2 ≤ Real.pi) ∧
    Real.pi / 2 = Real.arccos (clampedDot ((1 : ℝ), (-1 : ℝ)) ((-1 : ℝ), (-1 : ℝ))) := by
  have h := C5_center_angles squareDF squareBundle square_ok
  constructor
  · exact h.1 (Real.pi / 2) (by simp [squareBundle])
  · have h2 := h.2 0 (by simp [squareBundle]) (by rw [square_vectors]; norm_num)
      (by rw [square_vectors]; norm_num)
    simpa [squareBundle, square_vectors] using h2

theorem C6_witness : 0 ≤ squareBundle.area_cov :=
  (C6_area_cov squareDF squareBundle square_ok).2

theorem C7_witness :
    lineBundle.area_rec =
      (xmax lineDF.rows - xmin lineDF.rows) * (ymax lineDF.rows - ymin lineDF.rows) ∧
    0 ≤ lineBundle.area_rec ∧ lineBundle.area_rec = 0 := by
  have h := C7_area_rec lineDF lineBundle line_ok
  refine ⟨h.1, h.2.1, h.2.2 1 (Or.inl ?_)⟩
  intro p hp
  rw [lineDF_rows] at hp
  simp only [List.mem_cons, List.not_mem_nil, or_false] at hp
  rcases hp with rfl | rfl | rfl <;> rfl

theorem C8_witness :
    squareBundle.abs_distance =
      Real.sqrt (((squareDF.rows.getLastD (0, 0)).1 - (squareDF.rows.headD (0, 0)).1) ^ 2 +
        ((squareDF.rows.getLastD (0, 0)).2 - (squareDF.rows.headD (0, 0)).2) ^ 2) ∧
    0 ≤ squareBundle.abs_distance :=
  C8_abs_distance squareDF squareBundle square_ok

theorem C10_witness :
    compute_advanced (.df (reverseDF squareDF)) =
      .ok { radius := squareBundle.radius.reverse
            center_angles := squareBundle.center_angles.reverse
            area_cov := squareBundle.area_cov
            area_rec := squareBundle.area_rec
            abs_distance := squareBundle.abs_distance } :=
  C10_reverse_path squareDF squareBundle square_ok

end PathFeaturesAdvanced
